import Mathlib

/-!
Verification development for the deploy action core (action.go).

The Go source is shallowly embedded: paths are Lean strings, file contents
are lists of bytes, the filesystem is an explicit association list threaded
through the executors, and OS-level effects of the Run executor (LookPath,
Getwd, process start/wait, output replay) are supplied by an explicit
oracle record modelling what the operating system returns.
-/

set_option autoImplicit false

/-! ### Path helpers (Go path/filepath and strings, unix rules)

These model the exact stdlib functions the source calls:
filepath.Clean, filepath.Join, filepath.Base, strings.LastIndex(s, slash).
Paths are treated as character lists; the source only ever slices at a
slash, so byte and character indices agree on the paths of interest.
-/

/-- Split a character list on the slash separator (components of a path). -/
def splitOnSlashAux : List Char → List Char → List (List Char)
  | [], cur => [cur.reverse]
  | c :: rest, cur =>
    if c = '/' then cur.reverse :: splitOnSlashAux rest []
    else splitOnSlashAux rest (c :: cur)

/-- All slash-separated components of a path. -/
def splitOnSlash (l : List Char) : List (List Char) :=
  splitOnSlashAux l []

/-- Join path components back together with single slashes. -/
def joinParts : List (List Char) → List Char
  | [] => []
  | [x] => x
  | x :: xs => x ++ '/' :: joinParts xs

/-- One step of the lexical cleaning loop of filepath.Clean: drop empty and
dot components, resolve dot-dot against the accumulator (kept reversed). -/
def cleanStep (rooted : Bool) (acc : List (List Char)) (part : List Char) :
    List (List Char) :=
  if part = [] ∨ part = ['.'] then acc
  else if part = ['.', '.'] then
    match acc with
    | [] => if rooted then [] else [['.', '.']]
    | a :: rest => if a = ['.', '.'] then part :: acc else rest
  else part :: acc

/-- filepath.Clean on a character list: shortest lexical equivalent path. -/
def cleanList (l : List Char) : List Char :=
  if l = [] then ['.']
  else
    let rooted : Bool := match l with | '/' :: _ => true | _ => false
    let out := ((splitOnSlash l).foldl (cleanStep rooted) []).reverse
    let j := joinParts out
    if rooted then (if j = [] then ['/'] else '/' :: j)
    else (if j = [] then ['.'] else j)

/-- filepath.Clean. -/
def filepathClean (p : String) : String :=
  String.mk (cleanList p.data)

/-- filepath.Join of two elements: empty elements are dropped, the rest are
joined with a slash and the result is cleaned; all-empty input gives the
empty string. -/
def filepathJoin (a b : String) : String :=
  if a = "" then (if b = "" then "" else filepathClean b)
  else if b = "" then filepathClean a
  else filepathClean (a ++ "/" ++ b)

/-- Strip trailing slashes from a path, as filepath.Base does first. -/
def stripTrailingSlashes (l : List Char) : List Char :=
  (l.reverse.dropWhile (fun c => c = '/')).reverse

/-- The suffix of a path after its last slash (the whole path when it has
no slash). -/
def afterLastSlash (l : List Char) : List Char :=
  (l.reverse.takeWhile (fun c => c != '/')).reverse

/-- filepath.Base: last element of the path after trailing slashes are
removed; the empty path gives dot and an all-slash path gives a single
slash. -/
def filepathBase (p : String) : String :=
  if p = "" then "."
  else
    let l := stripTrailingSlashes p.data
    if l = [] then "/" else String.mk (afterLastSlash l)

/-- The path contains a slash separator (a directory component). -/
abbrev hasSep (p : String) : Prop := '/' ∈ p.data

/-- strings.LastIndex(s, slash): index of the last slash, or minus one. -/
def lastIndexSlash (s : String) : Int :=
  match s.data.reverse.findIdx? (fun c => c = '/') with
  | none => -1
  | some i => (s.data.length : Int) - 1 - i

/-- Prefix of the first n characters of a string (Go slice s[:n]). -/
def takeStr (s : String) (n : Nat) : String :=
  String.mk (s.data.take n)

/-! ### Filesystem model

Files are an association list from path to byte contents; directories
created by os.MkdirAll are recorded separately (MkdirAll is idempotent and
modelled as always succeeding). os.Open succeeds exactly when the file
exists; os.Create creates or truncates; os.Rename fails when the source is
missing and otherwise replaces any existing destination.
-/

namespace DeployCore

/-- Byte contents of a file. -/
abbrev Bytes := List Nat

/-- The modelled filesystem state. -/
structure FS where
  files : List (String × Bytes)
  dirs : List String
deriving DecidableEq, Repr

/-- First association for a path in a file list. -/
def lookupList : List (String × Bytes) → String → Option Bytes
  | [], _ => none
  | e :: rest, p => if e.1 = p then some e.2 else lookupList rest p

/-- Drop every association for a path from a file list. -/
def removeList : List (String × Bytes) → String → List (String × Bytes)
  | [], _ => []
  | e :: rest, p => if e.1 = p then removeList rest p else e :: removeList rest p

/-- Contents of the file at a path, when it exists. -/
def FS.lookup (fs : FS) (p : String) : Option Bytes :=
  lookupList fs.files p

/-- Delete the file at a path. -/
def FS.remove (fs : FS) (p : String) : FS :=
  { fs with files := removeList fs.files p }

/-- Create or overwrite the file at a path with the given contents. -/
def FS.write (fs : FS) (p : String) (b : Bytes) : FS :=
  { fs with files := (p, b) :: (fs.remove p).files }

/-- os.MkdirAll: record the directory; never fails, idempotent. -/
def FS.mkdirAll (fs : FS) (d : String) : FS :=
  { fs with dirs := d :: fs.dirs }

/-- os.Rename: fails when the source does not exist, otherwise moves the
contents to the destination path (replacing any file already there). -/
def FS.rename (fs : FS) (src dst : String) : Option FS :=
  match fs.lookup src with
  | none => none
  | some b => some ((fs.remove src).write dst b)

/-! ### Data model (action.go lines 17-55)

The continuation type Do is owned by the external driver and opaque to the
core, so the embedding is polymorphic in it. Go's untyped Data field holds
either nothing (its zero value) or one of the three decoded variants, so it
is an Option over the closed variant sum.
-/

/-- The Copy variant: source path and optional destination. -/
structure Copy where
  from_ : String
  to_ : String
deriving DecidableEq, Repr

/-- The Move variant: source path and optional destination. -/
structure Move where
  from_ : String
  to_ : String
deriving DecidableEq, Repr

/-- The Run variant: executable path, timeout in seconds, environment
overrides and argument vector. -/
structure Run where
  path : String
  timeout : Int
  environment : List String
  query : List String
deriving DecidableEq, Repr

/-- The closed set of decoded variant payloads held by an Action's Data
field. -/
inductive ActionData where
  | copy : Copy → ActionData
  | move : Move → ActionData
  | run : Run → ActionData
deriving DecidableEq, Repr

/-- One configured step; Do is the driver's opaque continuation type. -/
structure Action (Do : Type) where
  name : String
  follow : String
  data : Option ActionData
  next : Do

/-- The generic tagged head of a configuration record (type, name, follow). -/
structure ActionType where
  type_ : String
  name : String
  follow : String
deriving DecidableEq, Repr

/-- A configuration record as the yaml decoder presents it: the tagged head
plus every variant-specific field (absent fields are zero values). -/
structure YamlNode where
  type_ : String
  name : String
  follow : String
  from_ : String
  to_ : String
  path : String
  timeout : Int
  environment : List String
  query : List String
deriving DecidableEq, Repr

/-- The outcome of processing one Action. -/
structure Result (Do : Type) (E : Type) where
  next : Do
  error : Option E

/-- Modelled from the spec: the deploy driver record is out of scope except
for its target folder, the default destination root for Copy and Move. -/
structure Deploy where
  folder : String
deriving DecidableEq, Repr

/-! ### Copy and Move executors (action.go lines 106-161)

Each executor is a function of the filesystem returning the new filesystem,
the (possibly mutated, since `to` defaulting is cached back in place)
variant struct, the trace of primitive filesystem operations it performed,
and its error. The stream transfer of Copy reads the source at transfer
time, after the destination was created or truncated: copying a file onto
itself therefore reads the already-truncated contents, as the file handle
in the source does.
-/

/-- Primitive filesystem operations an executor can perform, in order. -/
inductive FsOp where
  | openSrc : String → FsOp
  | mkdirAll : String → FsOp
  | createDst : String → FsOp
  | copyStream : String → String → FsOp
  | rename : String → String → FsOp
deriving DecidableEq, Repr

/-- Result of one Copy or Move execution. -/
structure FileActResult (V : Type) where
  fs : FS
  val : V
  trace : List FsOp
  error : Option String

/-- Action.Copy (action.go lines 106-136): open the source, default an
empty destination to Join(deploy folder, name the source was opened with),
create the parent directory when the destination has a slash above index
zero, create or truncate the destination, then transfer the stream. -/
def Copy.exec (c : Copy) (path : String) (fs : FS) : FileActResult Copy :=
  match fs.lookup c.from_ with
  | none => ⟨fs, c, [FsOp.openSrc c.from_], some "open failed"⟩
  | some _ =>
    let to1 := if c.to_ = "" then filepathJoin path c.from_ else c.to_
    let folder := lastIndexSlash to1
    let mkOps : List FsOp :=
      if 0 < folder then [FsOp.mkdirAll (takeStr to1 folder.toNat)] else []
    let fs1 := if 0 < folder then fs.mkdirAll (takeStr to1 folder.toNat) else fs
    let fs2 := fs1.write to1 []
    let b := (fs2.lookup c.from_).getD []
    let fs3 := fs2.write to1 b
    ⟨fs3, { c with to_ := to1 },
      FsOp.openSrc c.from_ :: mkOps ++ [FsOp.createDst to1, FsOp.copyStream c.from_ to1],
      none⟩

/-- Action.Move (action.go lines 138-161): open the source, create the
parent directory computed from the original destination (which may still be
empty at that point), only then default an empty destination, and finish
with a rename. -/
def Move.exec (m : Move) (path : String) (fs : FS) : FileActResult Move :=
  match fs.lookup m.from_ with
  | none => ⟨fs, m, [FsOp.openSrc m.from_], some "open failed"⟩
  | some _ =>
    let folder := lastIndexSlash m.to_
    let mkOps : List FsOp :=
      if 0 < folder then [FsOp.mkdirAll (takeStr m.to_ folder.toNat)] else []
    let fs1 := if 0 < folder then fs.mkdirAll (takeStr m.to_ folder.toNat) else fs
    let to1 := if m.to_ = "" then filepathJoin path m.from_ else m.to_
    match fs1.rename m.from_ to1 with
    | none =>
      ⟨fs1, { m with to_ := to1 },
        FsOp.openSrc m.from_ :: mkOps ++ [FsOp.rename m.from_ to1], some "rename failed"⟩
    | some fs2 =>
      ⟨fs2, { m with to_ := to1 },
        FsOp.openSrc m.from_ :: mkOps ++ [FsOp.rename m.from_ to1], none⟩

/-! ### Run executor (action.go lines 163-211)

The operating-system effects the Run executor depends on are supplied by
an oracle record: the outcome of exec.LookPath, of os.Getwd, the inherited
environment of os.Environ, whether cmd.Start succeeds, the natural wait
outcome of the subprocess, how many seconds the subprocess would take to
exit, and the outcomes of replaying the two captured buffers. The library
semantics of exec.CommandContext with context.WithTimeout is modelled in
cmdWait: when the command carries a deadline and the subprocess would
outlive it, the process is killed and the wait step reports that the
deadline was exceeded; otherwise the natural wait outcome is returned.
-/

/-- The distinct failure causes of the Run executor. -/
inductive RunErr where
  | lookPathFailed
  | getwdFailed
  | startFailed
  | exitError : Nat → RunErr
  | deadlineExceeded
  | replayFailed : Nat → RunErr
deriving DecidableEq, Repr

/-- The constructed exec.Cmd: resolved path, argument vector, optional
deadline in seconds (from context.WithTimeout), environment list. -/
structure Cmd where
  path : String
  args : List String
  deadline : Option Nat
  env : List String
deriving DecidableEq, Repr

/-- The oracle of operating-system behavior consumed by one Run. -/
structure OSModel where
  lookPath : String → Option String
  wd : Option String
  environ : List String
  startOk : Bool
  natWaitErr : Option RunErr
  procDuration : Nat
  replayOutErr : Option RunErr
  replayErrErr : Option RunErr

/-- errors.Join: nil when every argument is nil, otherwise the non-nil
arguments in order. -/
def errorsJoin {α : Type} (l : List (Option α)) : Option (List α) :=
  let es := l.filterMap id
  if es.isEmpty then none else some es

/-- cmd.Wait under the modelled exec library semantics: a command whose
deadline elapses before its process exits is forcibly terminated and wait
reports the deadline was exceeded; otherwise the natural outcome stands. -/
def cmdWait (os : OSModel) (c : Cmd) : Option RunErr :=
  match c.deadline with
  | some d => if d < os.procDuration then some RunErr.deadlineExceeded else os.natWaitErr
  | none => os.natWaitErr

/-- Result of one Run execution: the (path-mutated) Run struct, the
command that was constructed (none when resolution aborted first), whether
the subprocess was started, and the final error. -/
structure RunOutcome where
  run : Run
  cmd : Option Cmd
  started : Bool
  error : Option (List RunErr)

/-- The part of Action.Run after path resolution (action.go lines 182-211):
build the command with a deadline exactly when the configured timeout is
positive, with the inherited environment followed by the overrides; start
it; after waiting, replay both captured buffers and join the three errors. -/
def Run.execResolved (os : OSModel) (r : Run) : RunOutcome :=
  let deadline := if 0 < r.timeout then some r.timeout.toNat else none
  let c : Cmd := ⟨r.path, r.query, deadline, os.environ ++ r.environment⟩
  if os.startOk then
    ⟨r, some c, true, errorsJoin [cmdWait os c, os.replayOutErr, os.replayErrErr]⟩
  else
    ⟨r, some c, false, some [RunErr.startFailed]⟩

/-- Action.Run (action.go lines 163-211): when the path equals its base it
is resolved through the search path, otherwise it is rewritten in place to
Join(working directory, path); then the command is built and supervised. -/
def Run.exec (os : OSModel) (r : Run) : RunOutcome :=
  if filepathBase r.path = r.path then
    match os.lookPath r.path with
    | none => ⟨r, none, false, some [RunErr.lookPathFailed]⟩
    | some p => Run.execResolved os { r with path := p }
  else
    match os.wd with
    | none => ⟨r, none, false, some [RunErr.getwdFailed]⟩
    | some wd => Run.execResolved os { r with path := filepathJoin wd r.path }

/-! ### Config decoder and dispatcher (action.go lines 57-104) -/

/-- Action.UnmarshalYAML (action.go lines 57-85): decode the tagged head,
assign name (falling back to the type tag) and follow, then switch on the
type tag: a known tag decodes the matching variant into Data, any other
tag leaves Data untouched and fails with the unknown-action-type error. -/
def unmarshalYAML {Do : Type} (a : Action Do) (node : YamlNode) :
    Action Do × Option String :=
  let t : ActionType := ⟨node.type_, node.name, node.follow⟩
  let a1 := { a with
    name := if t.name ≠ "" then t.name else t.type_
    follow := t.follow }
  if t.type_ = "copy" then
    ({ a1 with data := some (ActionData.copy ⟨node.from_, node.to_⟩) }, none)
  else if t.type_ = "move" then
    ({ a1 with data := some (ActionData.move ⟨node.from_, node.to_⟩) }, none)
  else if t.type_ = "run" then
    ({ a1 with data := some (ActionData.run ⟨node.path, node.timeout, node.environment, node.query⟩) }, none)
  else
    (a1, some "unknown action type")

/-- The error alternatives a processed Result can carry. -/
inductive ProcError where
  | ioErr : String → ProcError
  | runErr : List RunErr → ProcError
  | unknownType
deriving DecidableEq, Repr

/-- Deploy.Process (action.go lines 87-104): the Result's next field is
set to the continuation of the Action before the dispatch on the variant;
each arm stores only the executor's error into the Result. -/
def Deploy.process {Do : Type} (deploy : Deploy) (os : OSModel) (fs : FS)
    (a : Action Do) : Result Do ProcError × FS :=
  match a.data with
  | some (ActionData.copy c) =>
    let r := Copy.exec c deploy.folder fs
    (⟨a.next, r.error.map ProcError.ioErr⟩, r.fs)
  | some (ActionData.move m) =>
    let r := Move.exec m deploy.folder fs
    (⟨a.next, r.error.map ProcError.ioErr⟩, r.fs)
  | some (ActionData.run r) =>
    let o := Run.exec os r
    (⟨a.next, o.error.map ProcError.runErr⟩, fs)
  | none => (⟨a.next, some ProcError.unknownType⟩, fs)

/-! ### Helper lemmas -/

theorem lookupList_remove_self (l : List (String × Bytes)) (p : String) :
    lookupList (removeList l p) p = none := by
  induction l with
  | nil => rfl
  | cons e l ih =>
    by_cases h : e.1 = p
    · simpa [removeList, h] using ih
    · simp [removeList, lookupList, h, ih]

theorem lookupList_remove_ne (l : List (String × Bytes)) {p q : String} (h : q ≠ p) :
    lookupList (removeList l p) q = lookupList l q := by
  induction l with
  | nil => rfl
  | cons e l ih =>
    have hpq : ¬p = q := fun hc => h hc.symm
    by_cases hp : e.1 = p
    · have hq : ¬e.1 = q := by rw [hp]; exact fun hc => h hc.symm
      simp [removeList, lookupList, hp, hq, hpq, ih]
    · by_cases hq : e.1 = q
      · simp [removeList, lookupList, hp, hq, h]
      · simp [removeList, lookupList, hp, hq, ih]

@[simp] theorem FS.lookup_mkdirAll (fs : FS) (d q : String) :
    (fs.mkdirAll d).lookup q = fs.lookup q := rfl

@[simp] theorem FS.lookup_write_self (fs : FS) (p : String) (b : Bytes) :
    (fs.write p b).lookup p = some b := by
  simp [FS.lookup, FS.write, lookupList]

theorem FS.lookup_remove_self (fs : FS) (p : String) :
    (fs.remove p).lookup p = none := by
  simp [FS.lookup, FS.remove, lookupList_remove_self]

theorem FS.lookup_remove_ne (fs : FS) {p q : String} (h : q ≠ p) :
    (fs.remove p).lookup q = fs.lookup q := by
  simp [FS.lookup, FS.remove, lookupList_remove_ne _ h]

theorem FS.lookup_write_ne (fs : FS) {p q : String} (b : Bytes) (h : q ≠ p) :
    (fs.write p b).lookup q = fs.lookup q := by
  have hp : ¬(p = q) := fun hc => h hc.symm
  simp only [FS.lookup, FS.write, lookupList, hp, if_false]
  exact lookupList_remove_ne fs.files h

theorem afterLastSlash_no_slash {l : List Char} {c : Char}
    (h : c ∈ afterLastSlash l) : c ≠ '/' := by
  unfold afterLastSlash at h
  rw [List.mem_reverse] at h
  have := List.mem_takeWhile_imp h
  simpa using this

/-- A path that contains a separator and whose base is the whole path can
only be the single-separator path. -/
theorem filepathBase_ne {p : String} (hs : hasSep p) (hroot : p ≠ "/") :
    filepathBase p ≠ p := by
  intro heq
  have hne : p ≠ "" := by
    intro h0
    rw [h0] at hs
    exact absurd hs (by decide)
  unfold filepathBase at heq
  rw [if_neg hne] at heq
  by_cases hl : stripTrailingSlashes p.data = []
  · rw [if_pos hl] at heq
    exact hroot heq.symm
  · rw [if_neg hl] at heq
    have hdata : p.data = afterLastSlash (stripTrailingSlashes p.data) := by
      have := congrArg String.data heq
      exact this.symm
    have : ('/' : Char) ∈ afterLastSlash (stripTrailingSlashes p.data) := by
      rw [← hdata]; exact hs
    exact afterLastSlash_no_slash this rfl

theorem errorsJoin_three_eq_none {α : Type} (a b c : Option α) :
    errorsJoin [a, b, c] = none ↔ a = none ∧ b = none ∧ c = none := by
  cases a <;> cases b <;> cases c <;> simp [errorsJoin]

example : filepathJoin "/out" "a.txt" = "/out/a.txt" := by decide
example : filepathJoin "/out" "d/a.txt" = "/out/d/a.txt" := by decide
example : filepathJoin "/wd" "/usr/bin/x" = "/wd/usr/bin/x" := by decide
example : filepathJoin "/wd" "/" = "/wd" := by decide
example : filepathJoin "." "a.txt" = "a.txt" := by decide
example : filepathBase "d/a.txt" = "a.txt" := by decide
example : filepathBase "/" = "/" := by decide
example : filepathBase "a.txt" = "a.txt" := by decide
example : lastIndexSlash "" = -1 := by decide
example : lastIndexSlash "/out/a.txt" = 4 := by decide

/-! ### Claim theorems -/

/-- C8: for every decoded Action processed by the dispatcher, the Result's
next field equals the Action's continuation value, in every dispatch arm,
whether the executor succeeds or fails: Process never alters or drops the
continuation. -/
theorem process_preserves_next {Do : Type} (deploy : Deploy) (os : OSModel)
    (fs : FS) (a : Action Do) :
    (deploy.process os fs a).1.next = a.next := by
  unfold Deploy.process
  cases a.data with
  | none => rfl
  | some d => cases d <;> rfl

/-- C7 counterexample: a record with the unknown tag frob fails with the
unknown-action-type error, yet the target Action's name and follow fields
have observably been populated from the record by the time the decode
fails (they started out empty). -/
theorem unmarshal_unknown_populates_name :
    (unmarshalYAML (⟨"", "", none, ()⟩ : Action Unit)
        ⟨"frob", "x", "y", "", "", "", 0, [], []⟩).2 = some "unknown action type" ∧
    (unmarshalYAML (⟨"", "", none, ()⟩ : Action Unit)
        ⟨"frob", "x", "y", "", "", "", 0, [], []⟩).1.name = "x" ∧
    (unmarshalYAML (⟨"", "", none, ()⟩ : Action Unit)
        ⟨"frob", "x", "y", "", "", "", 0, [], []⟩).1.follow = "y" :=
  ⟨rfl, rfl, rfl⟩

/-- C7 (amended): for every record whose tag is none of copy, move and
run, decoding fails with the unknown-action-type error and the variant
payload is not populated (the data field is exactly what it was before);
the name and follow fields, however, are assigned from the record before
the failure. -/
theorem unmarshal_unknown_type {Do : Type} (a : Action Do) (node : YamlNode)
    (h1 : node.type_ ≠ "copy") (h2 : node.type_ ≠ "move")
    (h3 : node.type_ ≠ "run") :
    (unmarshalYAML a node).2 = some "unknown action type" ∧
    (unmarshalYAML a node).1.data = a.data ∧
    (unmarshalYAML a node).1.name =
      (if node.name ≠ "" then node.name else node.type_) ∧
    (unmarshalYAML a node).1.follow = node.follow := by
  unfold unmarshalYAML
  simp [h1, h2, h3]

/-- Witness for the amended C7 theorem at a concrete unknown-tag record. -/
theorem unmarshal_unknown_type_witness :
    ("frob" : String) ≠ "copy" ∧ ("frob" : String) ≠ "move" ∧
    ("frob" : String) ≠ "run" ∧
    ((unmarshalYAML (⟨"", "", none, ()⟩ : Action Unit)
        ⟨"frob", "x", "y", "", "", "", 0, [], []⟩).2 = some "unknown action type" ∧
      (unmarshalYAML (⟨"", "", none, ()⟩ : Action Unit)
        ⟨"frob", "x", "y", "", "", "", 0, [], []⟩).1.data = (none : Option ActionData) ∧
      (unmarshalYAML (⟨"", "", none, ()⟩ : Action Unit)
        ⟨"frob", "x", "y", "", "", "", 0, [], []⟩).1.name =
        (if ("x" : String) ≠ "" then "x" else "frob") ∧
      (unmarshalYAML (⟨"", "", none, ()⟩ : Action Unit)
        ⟨"frob", "x", "y", "", "", "", 0, [], []⟩).1.follow = "y") :=
  ⟨by decide, by decide, by decide,
    unmarshal_unknown_type _ _ (by decide) (by decide) (by decide)⟩

/-- Modelled from the spec: the default destination the spec documents for
Copy and Move, the deploy folder joined with the basename of the source.
Kept for comparison with what the source computes. -/
def specCopyDefaultTo (folder src : String) : String :=
  filepathJoin folder (filepathBase src)

/-- C1 counterexample: for a source with a directory component and an
empty destination, the Copy executor defaults the destination to the
deploy folder joined with the full source path as the opened file reports
its name, which differs from the deploy folder joined with the basename
of the source that the claim states. -/
theorem copy_default_uses_full_from :
    (Copy.exec ⟨"d/a.txt", ""⟩ "/out" ⟨[("d/a.txt", [1, 2])], []⟩).val.to_ =
      "/out/d/a.txt" ∧
    specCopyDefaultTo "/out" "d/a.txt" = "/out/a.txt" ∧
    ("/out/d/a.txt" : String) ≠ "/out/a.txt" := by
  refine ⟨by decide, by decide, by decide⟩

/-- C1 (amended): for every Copy whose to field is empty at execution time
and whose source opens, the executor sets the destination to the deploy
folder joined with the full configured from path (the name the opened
source file reports); this coincides with the basename form only when
from has no directory component. -/
theorem copy_default_to (c : Copy) (path : String) (fs : FS)
    (hto : c.to_ = "") (hopen : (fs.lookup c.from_).isSome = true) :
    (Copy.exec c path fs).val.to_ = filepathJoin path c.from_ := by
  obtain ⟨b, hb⟩ := Option.isSome_iff_exists.mp hopen
  simp [Copy.exec, hb, hto]

/-- Witness for the amended C1 theorem at a concrete empty-destination
Copy. -/
theorem copy_default_to_witness :
    (⟨"a.txt", ""⟩ : Copy).to_ = "" ∧
    (FS.lookup ⟨[("a.txt", [7])], []⟩ "a.txt").isSome = true ∧
    (Copy.exec ⟨"a.txt", ""⟩ "/out" ⟨[("a.txt", [7])], []⟩).val.to_ =
      filepathJoin "/out" "a.txt" :=
  ⟨rfl, by decide, copy_default_to ⟨"a.txt", ""⟩ "/out" ⟨[("a.txt", [7])], []⟩ rfl (by decide)⟩

/-- C9 counterexample: a Copy whose destination equals its source returns
success, but the destination is truncated before the stream is read, so
after success it holds no bytes although the source held three before the
copy: the full original byte contents are not transferred. -/
theorem copy_self_truncates :
    (Copy.exec ⟨"a.txt", "a.txt"⟩ "/out" ⟨[("a.txt", [1, 2, 3])], []⟩).error =
      none ∧
    (Copy.exec ⟨"a.txt", "a.txt"⟩ "/out"
        ⟨[("a.txt", [1, 2, 3])], []⟩).fs.lookup "a.txt" = some [] ∧
    FS.lookup ⟨[("a.txt", [1, 2, 3])], []⟩ "a.txt" = some [1, 2, 3] := by
  refine ⟨by decide, by decide, by decide⟩

/-- C9 (amended): for every Copy that returns success and whose resolved
destination differs from the source path, the destination file exists
afterwards and its contents equal the full byte contents the source had
before the copy. -/
theorem copy_success_contents (c : Copy) (path : String) (fs : FS)
    (hok : (Copy.exec c path fs).error = none)
    (hne : (Copy.exec c path fs).val.to_ ≠ c.from_) :
    ∃ b, fs.lookup c.from_ = some b ∧
      (Copy.exec c path fs).fs.lookup ((Copy.exec c path fs).val.to_) =
        some b := by
  cases hb : fs.lookup c.from_ with
  | none => rw [Copy.exec, hb] at hok; exact absurd hok (by simp)
  | some b =>
    refine ⟨b, rfl, ?_⟩
    have hto : (Copy.exec c path fs).val.to_ =
        (if c.to_ = "" then filepathJoin path c.from_ else c.to_) := by
      simp [Copy.exec, hb]
    rw [hto] at hne ⊢
    simp only [Copy.exec, hb]
    have hread :
        ((if 0 < lastIndexSlash (if c.to_ = "" then filepathJoin path c.from_ else c.to_) then
              fs.mkdirAll (takeStr (if c.to_ = "" then filepathJoin path c.from_ else c.to_)
                (lastIndexSlash (if c.to_ = "" then filepathJoin path c.from_ else c.to_)).toNat)
            else fs).write
            (if c.to_ = "" then filepathJoin path c.from_ else c.to_) []).lookup c.from_ =
          some b := by
      rw [FS.lookup_write_ne _ _ (fun hc => hne hc.symm)]
      split <;> split <;> simpa using hb
    simp only [hread, Option.getD_some]
    exact FS.lookup_write_self _ _ _

/-- Witness for the amended C9 theorem at a concrete distinct-destination
Copy. -/
theorem copy_success_contents_witness :
    (Copy.exec ⟨"a.txt", "b.txt"⟩ "/out" ⟨[("a.txt", [5, 6])], []⟩).error =
      none ∧
    (Copy.exec ⟨"a.txt", "b.txt"⟩ "/out"
        ⟨[("a.txt", [5, 6])], []⟩).val.to_ ≠ "a.txt" ∧
    ∃ b, FS.lookup ⟨[("a.txt", [5, 6])], []⟩ "a.txt" = some b ∧
      (Copy.exec ⟨"a.txt", "b.txt"⟩ "/out"
          ⟨[("a.txt", [5, 6])], []⟩).fs.lookup
        ((Copy.exec ⟨"a.txt", "b.txt"⟩ "/out"
            ⟨[("a.txt", [5, 6])], []⟩).val.to_) = some b :=
  ⟨by decide, by decide,
    copy_success_contents ⟨"a.txt", "b.txt"⟩ "/out" ⟨[("a.txt", [5, 6])], []⟩
      (by decide) (by decide)⟩

/-- Characterization of Move.exec when the source opens: the directory
step inspects the original destination, the defaulting happens afterwards,
and the run ends in the rename. -/
theorem Move.exec_some (m : Move) (path : String) (fs : FS) (b : Bytes)
    (hb : fs.lookup m.from_ = some b) :
    Move.exec m path fs =
      ⟨((if 0 < lastIndexSlash m.to_ then
            fs.mkdirAll (takeStr m.to_ (lastIndexSlash m.to_).toNat)
          else fs).remove m.from_).write
          (if m.to_ = "" then filepathJoin path m.from_ else m.to_) b,
        { m with to_ := if m.to_ = "" then filepathJoin path m.from_ else m.to_ },
        FsOp.openSrc m.from_ ::
          (if 0 < lastIndexSlash m.to_ then
              [FsOp.mkdirAll (takeStr m.to_ (lastIndexSlash m.to_).toNat)]
            else []) ++
          [FsOp.rename m.from_
            (if m.to_ = "" then filepathJoin path m.from_ else m.to_)],
        none⟩ := by
  have h1 : (if 0 < lastIndexSlash m.to_ then
      fs.mkdirAll (takeStr m.to_ (lastIndexSlash m.to_).toNat)
    else fs).lookup m.from_ = some b := by
    split <;> simpa using hb
  simp [Move.exec, hb, FS.rename, h1]

/-- C2: for every Move whose to field is empty at execution time and whose
source opens, the directory-creation step is skipped entirely (the
separator lookup runs on the still-empty original to), the defaulting of
to happens after that step, and the final operation is a rename of from
to the defaulted to. -/
theorem move_empty_to (m : Move) (path : String) (fs : FS)
    (hto : m.to_ = "") (hopen : (fs.lookup m.from_).isSome = true) :
    (∀ d, FsOp.mkdirAll d ∉ (Move.exec m path fs).trace) ∧
    (Move.exec m path fs).val.to_ = filepathJoin path m.from_ ∧
    ∃ pre, (Move.exec m path fs).trace =
      pre ++ [FsOp.rename m.from_ (filepathJoin path m.from_)] := by
  obtain ⟨b, hb⟩ := Option.isSome_iff_exists.mp hopen
  have h1 : lastIndexSlash "" = -1 := rfl
  have h2 : ¬(0 : Int) < -1 := by decide
  rw [Move.exec_some m path fs b hb]
  refine ⟨?_, ?_, ⟨[FsOp.openSrc m.from_], ?_⟩⟩ <;>
    simp [hto, h1, h2]

/-- Witness for the C2 theorem at a concrete empty-destination Move. -/
theorem move_empty_to_witness :
    (⟨"a.txt", ""⟩ : Move).to_ = "" ∧
    (FS.lookup ⟨[("a.txt", [7])], []⟩ "a.txt").isSome = true ∧
    ((∀ d, FsOp.mkdirAll d ∉
        (Move.exec ⟨"a.txt", ""⟩ "/out" ⟨[("a.txt", [7])], []⟩).trace) ∧
      (Move.exec ⟨"a.txt", ""⟩ "/out" ⟨[("a.txt", [7])], []⟩).val.to_ =
        filepathJoin "/out" "a.txt" ∧
      ∃ pre, (Move.exec ⟨"a.txt", ""⟩ "/out" ⟨[("a.txt", [7])], []⟩).trace =
        pre ++ [FsOp.rename "a.txt" (filepathJoin "/out" "a.txt")]) :=
  ⟨rfl, by decide,
    move_empty_to ⟨"a.txt", ""⟩ "/out" ⟨[("a.txt", [7])], []⟩ rfl (by decide)⟩

/-- C3 counterexample: a Move whose destination equals its source succeeds
while the source path still exists afterwards, contradicting that the
source path no longer exists after every successful Move. -/
theorem move_self_keeps_source :
    (Move.exec ⟨"a.txt", "a.txt"⟩ "/out" ⟨[("a.txt", [1, 2, 3])], []⟩).error =
      none ∧
    (Move.exec ⟨"a.txt", "a.txt"⟩ "/out"
        ⟨[("a.txt", [1, 2, 3])], []⟩).fs.lookup "a.txt" = some [1, 2, 3] := by
  refine ⟨by decide, by decide⟩

/-- C3 (amended): every Move that succeeds ends in a single rename and
performs no stream copy: the destination holds the bytes the source held
before, and whenever the source path differs from the resolved destination
the source path no longer exists afterwards. -/
theorem move_success_renames (m : Move) (path : String) (fs : FS)
    (hok : (Move.exec m path fs).error = none) :
    (∃ b, fs.lookup m.from_ = some b ∧
      (Move.exec m path fs).fs.lookup ((Move.exec m path fs).val.to_) =
        some b) ∧
    (∀ s d, FsOp.copyStream s d ∉ (Move.exec m path fs).trace) ∧
    (∃ pre, (Move.exec m path fs).trace =
      pre ++ [FsOp.rename m.from_ ((Move.exec m path fs).val.to_)]) ∧
    (m.from_ ≠ (Move.exec m path fs).val.to_ →
      (Move.exec m path fs).fs.lookup m.from_ = none) := by
  cases hb : fs.lookup m.from_ with
  | none => rw [Move.exec, hb] at hok; exact absurd hok (by simp)
  | some b =>
    rw [Move.exec_some m path fs b hb]
    refine ⟨⟨b, rfl, FS.lookup_write_self _ _ _⟩, ?_, ?_, ?_⟩
    · intro s d
      by_cases hf : 0 < lastIndexSlash m.to_ <;> simp [hf]
    · exact ⟨FsOp.openSrc m.from_ ::
        (if 0 < lastIndexSlash m.to_ then
            [FsOp.mkdirAll (takeStr m.to_ (lastIndexSlash m.to_).toNat)]
          else []), by simp⟩
    · intro hne
      show (FS.write _ _ _).lookup m.from_ = none
      rw [FS.lookup_write_ne _ _ hne]
      exact FS.lookup_remove_self _ _

/-- Witness for the amended C3 theorem at a concrete successful Move. -/
theorem move_success_renames_witness :
    (Move.exec ⟨"a.txt", "b/c.txt"⟩ "/out" ⟨[("a.txt", [9])], []⟩).error =
      none ∧
    ((∃ b, FS.lookup ⟨[("a.txt", [9])], []⟩ "a.txt" = some b ∧
        (Move.exec ⟨"a.txt", "b/c.txt"⟩ "/out"
            ⟨[("a.txt", [9])], []⟩).fs.lookup
          ((Move.exec ⟨"a.txt", "b/c.txt"⟩ "/out"
              ⟨[("a.txt", [9])], []⟩).val.to_) = some b) ∧
      (∀ s d, FsOp.copyStream s d ∉
        (Move.exec ⟨"a.txt", "b/c.txt"⟩ "/out" ⟨[("a.txt", [9])], []⟩).trace) ∧
      (∃ pre, (Move.exec ⟨"a.txt", "b/c.txt"⟩ "/out"
          ⟨[("a.txt", [9])], []⟩).trace =
        pre ++ [FsOp.rename "a.txt"
          ((Move.exec ⟨"a.txt", "b/c.txt"⟩ "/out"
              ⟨[("a.txt", [9])], []⟩).val.to_)]) ∧
      (("a.txt" : String) ≠
          (Move.exec ⟨"a.txt", "b/c.txt"⟩ "/out"
              ⟨[("a.txt", [9])], []⟩).val.to_ →
        (Move.exec ⟨"a.txt", "b/c.txt"⟩ "/out"
            ⟨[("a.txt", [9])], []⟩).fs.lookup "a.txt" = none)) :=
  ⟨by decide,
    move_success_renames ⟨"a.txt", "b/c.txt"⟩ "/out" ⟨[("a.txt", [9])], []⟩
      (by decide)⟩

/-- Run.exec either reaches the supervision phase with some resolved path
written back into the Run struct, or aborts during resolution with no
command constructed and no subprocess started. -/
theorem Run.exec_shape (os : OSModel) (r : Run) :
    (∃ p, Run.exec os r = Run.execResolved os { r with path := p }) ∨
    ((Run.exec os r).cmd = none ∧ (Run.exec os r).started = false) := by
  unfold Run.exec
  by_cases hbase : filepathBase r.path = r.path
  · rw [if_pos hbase]
    cases os.lookPath r.path with
    | none => exact Or.inr ⟨rfl, rfl⟩
    | some p => exact Or.inl ⟨p, rfl⟩
  · rw [if_neg hbase]
    cases os.wd with
    | none => exact Or.inr ⟨rfl, rfl⟩
    | some wd => exact Or.inl ⟨filepathJoin wd r.path, rfl⟩

/-- C4: for every Run whose subprocess was started, the final error is the
join of the wait error and the two buffer-replay errors; nothing
short-circuits, the error is nil exactly when all three components are
nil, and a clean wait with a failed stdout replay still yields an error. -/
theorem run_error_is_join (os : OSModel) (r : Run)
    (h : (Run.exec os r).started = true) :
    ∃ c, (Run.exec os r).cmd = some c ∧
      (Run.exec os r).error =
        errorsJoin [cmdWait os c, os.replayOutErr, os.replayErrErr] ∧
      ((Run.exec os r).error = none ↔
        cmdWait os c = none ∧ os.replayOutErr = none ∧
          os.replayErrErr = none) ∧
      (cmdWait os c = none → os.replayOutErr ≠ none →
        (Run.exec os r).error ≠ none) := by
  rcases Run.exec_shape os r with ⟨p, hp⟩ | ⟨hc, hs⟩
  · rw [hp] at h ⊢
    by_cases hst : os.startOk
    · refine ⟨⟨p, r.query,
        if 0 < r.timeout then some r.timeout.toNat else none,
        os.environ ++ r.environment⟩, ?_, ?_, ?_, ?_⟩
      · simp [Run.execResolved, hst]
      · simp [Run.execResolved, hst]
      · rw [show (Run.execResolved os { r with path := p }).error =
            errorsJoin [cmdWait os ⟨p, r.query,
              if 0 < r.timeout then some r.timeout.toNat else none,
              os.environ ++ r.environment⟩, os.replayOutErr,
              os.replayErrErr] from by simp [Run.execResolved, hst]]
        exact errorsJoin_three_eq_none _ _ _
      · intro hw hro hnone
        rw [show (Run.execResolved os { r with path := p }).error =
            errorsJoin [cmdWait os ⟨p, r.query,
              if 0 < r.timeout then some r.timeout.toNat else none,
              os.environ ++ r.environment⟩, os.replayOutErr,
              os.replayErrErr] from by simp [Run.execResolved, hst]] at hnone
        exact hro ((errorsJoin_three_eq_none _ _ _).mp hnone).2.1
    · simp [Run.execResolved, hst] at h
  · rw [hs] at h
    exact absurd h (by simp)

/-- Witness for the C4 theorem: a started subprocess whose wait is clean
but whose stdout replay fails. -/
theorem run_error_is_join_witness :
    (Run.exec
        ⟨fun _ => some "/bin/echo", some "/wd", ["A=1"], true, none, 0,
          some (RunErr.replayFailed 1), none⟩
        ⟨"echo", 0, [], ["hi"]⟩).started = true ∧
    ∃ c, (Run.exec
        ⟨fun _ => some "/bin/echo", some "/wd", ["A=1"], true, none, 0,
          some (RunErr.replayFailed 1), none⟩
        ⟨"echo", 0, [], ["hi"]⟩).cmd = some c ∧
      (Run.exec
        ⟨fun _ => some "/bin/echo", some "/wd", ["A=1"], true, none, 0,
          some (RunErr.replayFailed 1), none⟩
        ⟨"echo", 0, [], ["hi"]⟩).error =
        errorsJoin [cmdWait
          ⟨fun _ => some "/bin/echo", some "/wd", ["A=1"], true, none, 0,
            some (RunErr.replayFailed 1), none⟩ c,
          some (RunErr.replayFailed 1), none] ∧
      ((Run.exec
        ⟨fun _ => some "/bin/echo", some "/wd", ["A=1"], true, none, 0,
          some (RunErr.replayFailed 1), none⟩
        ⟨"echo", 0, [], ["hi"]⟩).error = none ↔
        cmdWait
          ⟨fun _ => some "/bin/echo", some "/wd", ["A=1"], true, none, 0,
            some (RunErr.replayFailed 1), none⟩ c = none ∧
          some (RunErr.replayFailed 1) = none ∧ (none : Option RunErr) = none) ∧
      (cmdWait
          ⟨fun _ => some "/bin/echo", some "/wd", ["A=1"], true, none, 0,
            some (RunErr.replayFailed 1), none⟩ c = none →
        some (RunErr.replayFailed 1) ≠ none →
        (Run.exec
          ⟨fun _ => some "/bin/echo", some "/wd", ["A=1"], true, none, 0,
            some (RunErr.replayFailed 1), none⟩
          ⟨"echo", 0, [], ["hi"]⟩).error ≠ none) :=
  ⟨rfl, run_error_is_join _ _ rfl⟩

/-- C5: every constructed Run command carries a deadline of timeout
seconds exactly when the configured timeout is positive — and when that
deadline elapses before the subprocess would exit, the wait step reports
the deadline was exceeded — while a non-positive timeout yields a command
with no deadline at all. -/
theorem run_timeout_deadline (os : OSModel) (r : Run) (c : Cmd)
    (h : (Run.exec os r).cmd = some c) :
    (0 < r.timeout →
      c.deadline = some r.timeout.toNat ∧
      (r.timeout.toNat < os.procDuration →
        cmdWait os c = some RunErr.deadlineExceeded)) ∧
    (r.timeout ≤ 0 → c.deadline = none) := by
  rcases Run.exec_shape os r with ⟨p, hp⟩ | ⟨hc, hs⟩
  · rw [hp] at h
    have hcmd : c = ⟨p, r.query,
        if 0 < r.timeout then some r.timeout.toNat else none,
        os.environ ++ r.environment⟩ := by
      by_cases hst : os.startOk <;> simp [Run.execResolved, hst] at h <;>
        exact h.symm
    constructor
    · intro hpos
      have hd : c.deadline = some r.timeout.toNat := by
        rw [hcmd]; simp [hpos]
      exact ⟨hd, fun hdur => by simp [cmdWait, hd, hdur]⟩
    · intro hnonpos
      have : ¬0 < r.timeout := not_lt.mpr hnonpos
      rw [hcmd]; simp [this]
  · rw [hc] at h
    exact absurd h (by simp)

/-- Witness for the C5 theorem: a one-second timeout against a subprocess
that would run five seconds, and separately the non-positive branch. -/
theorem run_timeout_deadline_witness :
    (Run.exec
        ⟨fun _ => some "/bin/sleep", some "/wd", [], true, none, 5, none,
          none⟩
        ⟨"sleep", 1, [], ["5"]⟩).cmd = some ⟨"/bin/sleep", ["5"], some 1, []⟩ ∧
    ((0 < (1 : Int) →
      (⟨"/bin/sleep", ["5"], some 1, []⟩ : Cmd).deadline =
        some (1 : Int).toNat ∧
      ((1 : Int).toNat <
          (⟨fun _ => some "/bin/sleep", some "/wd", [], true, none, 5, none,
            none⟩ : OSModel).procDuration →
        cmdWait
          ⟨fun _ => some "/bin/sleep", some "/wd", [], true, none, 5, none,
            none⟩
          ⟨"/bin/sleep", ["5"], some 1, []⟩ =
          some RunErr.deadlineExceeded)) ∧
    ((1 : Int) ≤ 0 →
      (⟨"/bin/sleep", ["5"], some 1, []⟩ : Cmd).deadline = none)) :=
  ⟨rfl, run_timeout_deadline
    ⟨fun _ => some "/bin/sleep", some "/wd", [], true, none, 5, none, none⟩
    ⟨"sleep", 1, [], ["5"]⟩ ⟨"/bin/sleep", ["5"], some 1, []⟩ rfl⟩

/-- C6: the environment list of every constructed Run command equals the
full inherited environment followed by the configured override entries in
their configured order, with no deduplication of keys occurring in both. -/
theorem run_env_append (os : OSModel) (r : Run) (c : Cmd)
    (h : (Run.exec os r).cmd = some c) :
    c.env = os.environ ++ r.environment := by
  rcases Run.exec_shape os r with ⟨p, hp⟩ | ⟨hc, hs⟩
  · rw [hp] at h
    have hcmd : c = ⟨p, r.query,
        if 0 < r.timeout then some r.timeout.toNat else none,
        os.environ ++ r.environment⟩ := by
      by_cases hst : os.startOk <;> simp [Run.execResolved, hst] at h <;>
        exact h.symm
    rw [hcmd]
  · rw [hc] at h
    exact absurd h (by simp)

/-- Witness for the C6 theorem: the same key configured in the inherited
environment and in the overrides appears twice, inherited first. -/
theorem run_env_append_witness :
    (Run.exec
        ⟨fun _ => some "/bin/x", some "/wd", ["A=1"], true, none, 0, none,
          none⟩
        ⟨"x", 0, ["A=2"], []⟩).cmd =
      some ⟨"/bin/x", [], none, ["A=1", "A=2"]⟩ ∧
    (⟨"/bin/x", [], none, ["A=1", "A=2"]⟩ : Cmd).env = ["A=1"] ++ ["A=2"] :=
  ⟨rfl, run_env_append
    ⟨fun _ => some "/bin/x", some "/wd", ["A=1"], true, none, 0, none, none⟩
    ⟨"x", 0, ["A=2"], []⟩ ⟨"/bin/x", [], none, ["A=1", "A=2"]⟩ rfl⟩

/-- C10 counterexample: the single-separator path contains a separator,
yet its base equals the whole path, so the executor takes the search-path
branch: with a failing search-path lookup it aborts, the path is left
unrewritten, and in particular it is not rewritten to the working
directory joined with the configured value. -/
theorem run_root_path_uses_lookpath :
    hasSep "/" ∧
    (Run.exec ⟨fun _ => none, some "/wd", [], true, none, 0, none, none⟩
        ⟨"/", 0, [], []⟩).error = some [RunErr.lookPathFailed] ∧
    (Run.exec ⟨fun _ => none, some "/wd", [], true, none, 0, none, none⟩
        ⟨"/", 0, [], []⟩).run.path = "/" ∧
    filepathJoin "/wd" "/" = "/wd" ∧ ("/" : String) ≠ "/wd" :=
  ⟨by decide, rfl, rfl, by decide, by decide⟩

/-- C10 (amended): for every Run whose path contains a separator and is
not exactly the single-separator path (equivalently, whose base differs
from the whole path), when the working directory is available the
executor rewrites the path in place to the working directory joined with
the configured value before spawning — in particular an absolute
configured path is executed relative to the working directory, never as
the absolute path itself. -/
theorem run_path_rewrite (os : OSModel) (r : Run) (wd : String)
    (hs : hasSep r.path) (hroot : r.path ≠ "/") (hwd : os.wd = some wd) :
    (Run.exec os r).run.path = filepathJoin wd r.path := by
  have hb : filepathBase r.path ≠ r.path := filepathBase_ne hs hroot
  unfold Run.exec
  rw [if_neg hb, hwd]
  by_cases hst : os.startOk <;> simp [Run.execResolved, hst]

/-- Witness for the amended C10 theorem: an absolute configured path is
rewritten to the working directory joined with it. -/
theorem run_path_rewrite_witness :
    hasSep "/usr/bin/x" ∧ ("/usr/bin/x" : String) ≠ "/" ∧
    (⟨fun _ => none, some "/wd", [], true, none, 0, none, none⟩ :
        OSModel).wd = some "/wd" ∧
    (Run.exec ⟨fun _ => none, some "/wd", [], true, none, 0, none, none⟩
        ⟨"/usr/bin/x", 0, [], []⟩).run.path =
      filepathJoin "/wd" "/usr/bin/x" :=
  ⟨by decide, by decide, rfl,
    run_path_rewrite
      ⟨fun _ => none, some "/wd", [], true, none, 0, none, none⟩
      ⟨"/usr/bin/x", 0, [], []⟩ "/wd" (by decide) (by decide) rfl⟩

end DeployCore
